import Mathlib

/-!
Verification of the session and live-feed coordination layer of a
MongoDB desktop-client backend (Rust, Tauri commands).

The embedding below translates, into Lean, the state and operations of:
* `src/mongo/cursor_engine.rs` — `CursorSession`, `next_batch`, `set_batch_size`;
* `src/app/commands.rs` — `connect_db`, `fetch_next`, `cancel_query`,
  query-history recording in `start_find` / `start_aggregate`,
  `start_change_stream`'s background event-storing task,
  `stop_change_stream`, `get_change_stream_events`,
  `clear_change_stream_events`;
* `src/app/state.rs` — `AppState`, `ConnectionInfo`, `ChangeStreamInfo`,
  `QueryHistoryEntry`, and the process-wide static `CHANGE_STREAM_EVENTS`.

External collaborators (the MongoDB driver, BSON/JSON codec, clocks and
UUID generation) are modelled as opaque values or explicit parameters:
driver client handles are `Unit`, decoded documents and serialized change
events are an arbitrary element type, timestamps are `Nat`, and each
per-item read from a driver cursor is an `Except Unit α` (`ok` = decoded
document, `error` = per-item decode failure).  A `HashMap<String, V>` is
modelled as an association list with first-match lookup; `insert`
replaces any previous binding and `remove` deletes every binding of the
key, matching the unique-key semantics of the Rust map.
-/

/-- Association-list model of `HashMap<String, V>` from `std::collections`. -/
abbrev HMap (β : Type) : Type := List (String × β)

/-- Lookup of a key, first match wins (models `HashMap::get`). -/
def HMap.find {β : Type} : HMap β → String → Option β
  | [], _ => none
  | (k2, v) :: rest, k => if k2 = k then some v else HMap.find rest k

/-- Removal of a key (models `HashMap::remove`; deletes every binding of `k`,
which coincides with removing the unique binding on maps built by `insert`). -/
def HMap.remove {β : Type} : HMap β → String → HMap β
  | [], _ => []
  | (k2, v) :: rest, k =>
    if k2 = k then HMap.remove rest k else (k2, v) :: HMap.remove rest k

/-- Insertion of a binding (models `HashMap::insert`, which overwrites). -/
def HMap.insert {β : Type} (m : HMap β) (k : String) (v : β) : HMap β :=
  (k, v) :: HMap.remove m k

deriving instance DecidableEq for Except

/-- Cursor-pagination session, from `src/mongo/cursor_engine.rs`.
The driver's forward-only result stream is modelled as the list of its
remaining per-item read results: `Except.ok d` is a successfully decoded
document, `Except.error e` a per-item decode failure; the end of the
list is stream exhaustion (`cursor.next()` returning `None`). -/
structure CursorSession (α : Type) where
  cursor : List (Except Unit α)
  batch_size : Nat
deriving DecidableEq

/-- Loop body of `CursorSession::next_batch` (`for _ in 0..self.batch_size`):
on `Some(Ok(doc))` push the document, on `Some(Err(_))` stop (the failing
item has been consumed from the stream), on `None` stop.  Returns the
collected batch and the remaining stream. -/
def nextBatchGo {α : Type} : Nat → List (Except Unit α) → List α × List (Except Unit α)
  | 0, s => ([], s)
  | Nat.succ _, [] => ([], [])
  | Nat.succ n, Except.ok d :: rest =>
    let p := nextBatchGo n rest
    (d :: p.1, p.2)
  | Nat.succ _, Except.error _ :: rest => ([], rest)

/-- `CursorSession::next_batch` from `src/mongo/cursor_engine.rs`, lines 10–23. -/
def next_batch {α : Type} (s : CursorSession α) : List α × CursorSession α :=
  let p := nextBatchGo s.batch_size s.cursor
  (p.1, { s with cursor := p.2 })

/-- `CursorSession::set_batch_size` from `src/mongo/cursor_engine.rs`, line 26:
`self.batch_size = size.max(1).min(1000)`. -/
def set_batch_size {α : Type} (s : CursorSession α) (size : Nat) : CursorSession α :=
  { s with batch_size := min (max size 1) 1000 }

/-- `fetch_next` from `src/app/commands.rs`, lines 295–312: looks the session
up in the cursors map (error `"Invalid session ID"` when absent), runs
`next_batch`, and leaves the advanced session in the map.  The
document-to-JSON serialization of the batch is the external codec and is
modelled as the identity. -/
def fetch_next {α : Type} (cursors : HMap (CursorSession α)) (session_id : String) :
    Except String (List α × HMap (CursorSession α)) :=
  match HMap.find cursors session_id with
  | none => Except.error "Invalid session ID"
  | some s =>
    let p := next_batch s
    Except.ok (p.1, HMap.insert cursors session_id p.2)

/-- `cancel_query` from `src/app/commands.rs`, lines 315–321: removes the
session and always returns `Ok(())`; the resulting cursors map is returned
explicitly here. -/
def cancel_query {α : Type} (cursors : HMap (CursorSession α)) (session_id : String) :
    Except String (HMap (CursorSession α)) :=
  Except.ok (HMap.remove cursors session_id)

/-- Bounded append used verbatim at two places in `src/app/commands.rs`:
the query-history recording in `start_find` (lines 163–167) and
`start_aggregate` (lines 213–217), and the change-stream background task
in `start_change_stream` (lines 613–617): push at the tail, then if the
length exceeds 1000 remove the element at index 0. -/
def push_evict {α : Type} (buf : List α) (x : α) : List α :=
  let buf2 := buf ++ [x]
  if buf2.length > 1000 then buf2.drop 1 else buf2

/-- One append of the background event-storing task spawned by
`start_change_stream` (`src/app/commands.rs`, lines 610–621): only when the
stream id is still present in the static events map is the event appended
with eviction at capacity 1000; a missing entry makes the append a no-op. -/
def store_event {ε : Type} (events_map : HMap (List ε)) (stream_id : String) (event : ε) :
    HMap (List ε) :=
  match HMap.find events_map stream_id with
  | some events => HMap.insert events_map stream_id (push_evict events event)
  | none => events_map

/-- `ConnectionInfo` from `src/app/state.rs`; the timestamp is a `Nat`. -/
structure ConnectionInfo where
  id : String
  name : String
  uri : String
  connected_at : Nat
deriving DecidableEq

/-- Connection-registry slice of `AppState` (`src/app/state.rs`): the
`clients` map (driver handles, opaque here) and the `connections` map. -/
structure ConnState where
  clients : HMap Unit
  connections : HMap ConnectionInfo
deriving DecidableEq

/-- `connect_db` from `src/app/commands.rs`, lines 17–43.  The driver call
`client::connect`, the elapsed-time measurement, the generated UUID and the
clock are external effects, passed in as `connect_result`,
`connection_time`, `connection_id` and `now`.  On success the handle and
metadata are stored under `connection_id` and the command returns the
string `format!("{}|{}", connection_id, connection_time)`; the display
name defaults to `uri.split('@').last()`. -/
def connect_db (connect_result : Except String Unit) (connection_time : Nat)
    (connection_id : String) (now : Nat) (uri : String) (name : Option String)
    (st : ConnState) : Except String (String × ConnState) :=
  match connect_result with
  | Except.error e => Except.error e
  | Except.ok client =>
    let connection_name := name.getD ((uri.splitOn "@").getLastD "Connection")
    let connection_info : ConnectionInfo :=
      { id := connection_id, name := connection_name, uri := uri, connected_at := now }
    Except.ok (connection_id ++ "|" ++ toString connection_time,
      { clients := HMap.insert st.clients connection_id client,
        connections := HMap.insert st.connections connection_id connection_info })

/-- `ChangeStreamInfo` from `src/app/state.rs`; the JSON filter is opaque. -/
structure ChangeStreamInfo where
  id : String
  connection_id : String
  database : String
  collection : Option String
  filter : Option Unit
  operation_types : List String
  started_at : Nat
  is_active : Bool
deriving DecidableEq

/-- Change-feed slice of the program state: the three per-request maps of
`AppState` plus the contents of the process-wide
`CHANGE_STREAM_EVENTS : OnceLock<...>` static (`src/app/state.rs`, line 10);
`none` models the `OnceLock` not having been initialized. -/
structure FeedState (ε : Type) where
  change_streams : HMap ChangeStreamInfo
  change_stream_senders : HMap Unit
  change_stream_events : HMap (List ε)
  static_events : Option (HMap (List ε))
deriving DecidableEq

/-- `stop_change_stream` from `src/app/commands.rs`, lines 654–667: flips
`is_active` when the stream is known, then removes the id from
`change_streams`, `change_stream_senders` and `change_stream_events`.
The static `CHANGE_STREAM_EVENTS` map is not touched by the source. -/
def stop_change_stream {ε : Type} (st : FeedState ε) (stream_id : String) : FeedState ε :=
  let streams :=
    match HMap.find st.change_streams stream_id with
    | some info => HMap.insert st.change_streams stream_id { info with is_active := false }
    | none => st.change_streams
  { change_streams := HMap.remove streams stream_id,
    change_stream_senders := HMap.remove st.change_stream_senders stream_id,
    change_stream_events := HMap.remove st.change_stream_events stream_id,
    static_events := st.static_events }

/-- `get_change_stream_events` from `src/app/commands.rs`, lines 692–722:
reads the static `CHANGE_STREAM_EVENTS` map; when the id is present there
it returns up to `limit` (default 100) events, most recent first
(`iter().rev().take(limit)`), and overwrites the state-side copy of the
buffer with the static one when the state map knows the id; otherwise it
returns an empty list. -/
def get_change_stream_events {ε : Type} (st : FeedState ε) (stream_id : String)
    (limit : Option Nat) : List ε × FeedState ε :=
  match st.static_events with
  | some events_map =>
    match HMap.find events_map stream_id with
    | some events =>
      let limit_val := limit.getD 100
      let result := events.reverse.take limit_val
      match HMap.find st.change_stream_events stream_id with
      | some _ =>
        (result,
          { st with
            change_stream_events := HMap.insert st.change_stream_events stream_id events })
      | none => (result, st)
    | none => ([], st)
  | none => ([], st)

/-- `clear_change_stream_events` from `src/app/commands.rs`, lines 742–751:
clears the state-side `change_stream_events` entry when present.  The
static `CHANGE_STREAM_EVENTS` map is not touched by the source. -/
def clear_change_stream_events {ε : Type} (st : FeedState ε) (stream_id : String) :
    FeedState ε :=
  match HMap.find st.change_stream_events stream_id with
  | some _ =>
    { st with change_stream_events := HMap.insert st.change_stream_events stream_id [] }
  | none => st

/-- `QueryHistoryEntry` from `src/app/state.rs`; the JSON query payload is
modelled as its serialized text and the timestamp as a `Nat`. -/
structure QueryHistoryEntry where
  id : String
  connection_id : String
  database : String
  collection : String
  query_type : String
  query : String
  executed_at : Nat
  execution_time_ms : Option Nat
deriving DecidableEq

/-- Phases of one in-flight `fetch_next` call: before acquiring the cursors
mutex, holding it (the whole body of `fetch_next`, including the awaited
`next_batch`, runs under the guard obtained at `src/app/commands.rs`,
line 299), and after returning. -/
inductive Phase : Type where
  | start : Phase
  | locked : Phase
  | done : Phase
deriving DecidableEq

/-- The mutex `fetch_next` acquires for a given session id.  In the source
it is always the single `state.cursors : Mutex<HashMap<String, CursorSession>>`
(`src/app/commands.rs`, line 299), whatever the session id. -/
def lockOfFetch (_session_id : String) : String := "state.cursors"

/-- State of two concurrent `fetch_next` invocations: the phase of each
call and, for every mutex name, which call (if any) currently holds it. -/
structure LockSys where
  phase : Fin 2 → Phase
  holder : String → Option (Fin 2)

/-- Both calls pending, no mutex held. -/
def initSys : LockSys :=
  { phase := fun _ => Phase.start, holder := fun _ => none }

/-- Interleaving semantics of call `i`: it may acquire its mutex only when
free (entering its critical section, which spans the whole `fetch_next`
body), and releases it when the body ends. -/
inductive FetchStep (lockOf : Fin 2 → String) (i : Fin 2) : LockSys → LockSys → Prop where
  | acquire (s : LockSys) :
      s.phase i = Phase.start → s.holder (lockOf i) = none →
      FetchStep lockOf i s
        { phase := Function.update s.phase i Phase.locked,
          holder := Function.update s.holder (lockOf i) (some i) }
  | release (s : LockSys) :
      s.phase i = Phase.locked →
      FetchStep lockOf i s
        { phase := Function.update s.phase i Phase.done,
          holder := Function.update s.holder (lockOf i) none }

/-- States reachable from `initSys` by interleaving the two calls. -/
inductive Reach (lockOf : Fin 2 → String) : LockSys → Prop where
  | init : Reach lockOf initSys
  | step {s s2 : LockSys} {i : Fin 2} :
      Reach lockOf s → FetchStep lockOf i s s2 → Reach lockOf s2

/-- Session ids of the two concurrent calls in the blocking scenario. -/
def sidsAB : Fin 2 → String := fun i => if i = 0 then "a" else "b"

/-- Lock assignment induced by the source for those two distinct sessions. -/
def lockAB : Fin 2 → String := fun i => lockOfFetch (sidsAB i)

/-- State in which call 0 (session `"a"`) holds the cursors mutex and call 1
(session `"b"`) has not started its fetch. -/
def blockedSys : LockSys :=
  { phase := Function.update initSys.phase 0 Phase.locked,
    holder := Function.update initSys.holder (lockAB 0) (some 0) }

/-- Stream metadata used by the concrete change-feed scenarios. -/
def demoInfo : ChangeStreamInfo :=
  { id := "s", connection_id := "c", database := "d", collection := none,
    filter := none, operation_types := [], started_at := 0, is_active := true }

/-- Change-feed state with one active stream `"s"` holding a single
buffered event `0` in both the state-side and the static events maps —
exactly the state after a watch on `"s"` has buffered one event. -/
def feedDemoState : FeedState Nat :=
  { change_streams := [("s", demoInfo)],
    change_stream_senders := [("s", ())],
    change_stream_events := [("s", [0])],
    static_events := some [("s", [0])] }

/-- History entry used by the concrete query-history scenario. -/
def demoEntry : QueryHistoryEntry :=
  { id := "e", connection_id := "c", database := "d", collection := "coll",
    query_type := "find", query := "q", executed_at := 0, execution_time_ms := none }

/-- Lookup after removal of the same key always misses. -/
theorem HMap.find_remove {β : Type} (m : HMap β) (k : String) :
    HMap.find (HMap.remove m k) k = none := by
  induction m with
  | nil => rfl
  | cons hd tl ih =>
    obtain ⟨k2, v⟩ := hd
    by_cases h : k2 = k
    · simp [HMap.remove, h, ih]
    · simp [HMap.remove, HMap.find, h, ih]

/-- Removing a key that is absent leaves the map unchanged. -/
theorem HMap.remove_of_find_none {β : Type} {m : HMap β} {k : String}
    (h : HMap.find m k = none) : HMap.remove m k = m := by
  induction m with
  | nil => rfl
  | cons hd tl ih =>
    obtain ⟨k2, v⟩ := hd
    by_cases hk : k2 = k
    · simp [HMap.find, hk] at h
    · simp only [HMap.find, hk, if_false] at h
      simp [HMap.remove, hk, ih h]

/-- Removing a key twice is the same as removing it once. -/
theorem HMap.remove_remove {β : Type} (m : HMap β) (k : String) :
    HMap.remove (HMap.remove m k) k = HMap.remove m k :=
  HMap.remove_of_find_none (HMap.find_remove m k)

/-- Lookup after insertion of the same key returns the inserted value. -/
theorem HMap.find_insert {β : Type} (m : HMap β) (k : String) (v : β) :
    HMap.find (HMap.insert m k v) k = some v := by
  simp [HMap.insert, HMap.find]

/-- A batch never contains more items than the loop bound. -/
theorem nextBatchGo_length_le {α : Type} (n : Nat) (s : List (Except Unit α)) :
    (nextBatchGo n s).1.length ≤ n := by
  induction n generalizing s with
  | zero => simp [nextBatchGo]
  | succ n ih =>
    match s with
    | [] => simp [nextBatchGo]
    | Except.ok d :: rest => simpa [nextBatchGo] using ih rest
    | Except.error e :: rest => simp [nextBatchGo]

/-- An exhausted stream yields an empty batch and stays exhausted. -/
theorem nextBatchGo_nil {α : Type} (n : Nat) :
    (nextBatchGo n ([] : List (Except Unit α))) = ([], []) := by
  cases n <;> rfl

/-- Running the batch loop into a stream whose first decode failure comes
after `docs` successfully decoded items, with loop bound strictly larger,
collects exactly `docs` and consumes the stream through the failed item. -/
theorem nextBatchGo_until_error {α : Type} (docs : List α) (e : Unit)
    (rest : List (Except Unit α)) (n : Nat) (h : docs.length < n) :
    nextBatchGo n (docs.map Except.ok ++ Except.error e :: rest) = (docs, rest) := by
  induction docs generalizing n with
  | nil =>
    match n, h with
    | Nat.succ n, _ => rfl
  | cons d ds ih =>
    match n, h with
    | Nat.succ n, h =>
      have hlt : ds.length < n := by simpa using Nat.lt_of_succ_lt_succ h
      simp [nextBatchGo, ih n hlt]

/-- Folding the bounded append from the empty buffer keeps exactly the
most recent 1000 elements, in arrival order. -/
theorem foldl_push_evict {α : Type} (xs : List α) :
    List.foldl push_evict [] xs = xs.drop (xs.length - 1000) := by
  induction xs using List.reverseRecOn with
  | nil => simp
  | append_singleton xs x ih =>
    rw [List.foldl_append, ih]
    simp only [List.foldl_cons, List.foldl_nil, push_evict]
    by_cases h : xs.length < 1000
    · have h0 : xs.length - 1000 = 0 := Nat.sub_eq_zero_of_le (Nat.le_of_lt h)
      rw [h0, List.drop_zero]
      have hcond : ¬ (xs ++ [x]).length > 1000 := by
        simp only [List.length_append, List.length_cons, List.length_nil]
        omega
      rw [if_neg hcond]
      have h1 : (xs ++ [x]).length - 1000 = 0 := by
        simp only [List.length_append, List.length_cons, List.length_nil]
        omega
      rw [h1, List.drop_zero]
    · push_neg at h
      have hdlen : (xs.drop (xs.length - 1000)).length = 1000 := by
        simp only [List.length_drop]
        omega
      have hcond : (xs.drop (xs.length - 1000) ++ [x]).length > 1000 := by
        simp only [List.length_append, hdlen, List.length_cons, List.length_nil]
        omega
      rw [if_pos hcond]
      have hone : (1 : Nat) ≤ (xs.drop (xs.length - 1000)).length := by omega
      rw [List.drop_append_of_le_length hone, List.drop_drop]
      have htot : (xs ++ [x]).length - 1000 = (xs.length - 1000) + 1 := by
        simp only [List.length_append, List.length_cons, List.length_nil]
        omega
      rw [htot,
        List.drop_append_of_le_length (by omega : (xs.length - 1000) + 1 ≤ xs.length)]

/-- Taking from a reversed list is reversing a suffix: the `k` most recent
elements, newest first. -/
theorem reverse_take_eq_drop_reverse {α : Type} (l : List α) (k : Nat) :
    l.reverse.take k = (l.drop (l.length - k)).reverse := by
  rw [List.reverse_drop]
  rcases Nat.le_total k l.length with h | h
  · rw [Nat.sub_sub_self h]
  · rw [Nat.sub_eq_zero_of_le h, Nat.sub_zero,
      List.take_of_length_le (by simpa using h),
      List.take_of_length_le (by simp)]

/-- In every reachable interleaving state, a call inside its critical
section is recorded as the holder of the mutex it acquired. -/
theorem reach_holder_inv {lockOf : Fin 2 → String} {s : LockSys}
    (h : Reach lockOf s) :
    ∀ i : Fin 2, s.phase i = Phase.locked → s.holder (lockOf i) = some i := by
  induction h with
  | init => intro i hi; simp [initSys] at hi
  | @step s1 s2 j hreach hstep ih =>
    cases hstep with
    | acquire hstart hfree =>
      intro i hi
      have hi2 : Function.update s1.phase j Phase.locked i = Phase.locked := hi
      by_cases hij : i = j
      · subst hij
        show Function.update s1.holder (lockOf i) (some i) (lockOf i) = some i
        rw [Function.update_same]
      · have hpi : s1.phase i = Phase.locked := by
          rwa [Function.update_noteq hij] at hi2
        have hold : s1.holder (lockOf i) = some i := ih i hpi
        show Function.update s1.holder (lockOf j) (some j) (lockOf i) = some i
        by_cases hkey : lockOf i = lockOf j
        · rw [hkey, hfree] at hold
          exact absurd hold (by simp)
        · rw [Function.update_noteq hkey]
          exact hold
    | release hlocked =>
      intro i hi
      have hi2 : Function.update s1.phase j Phase.done i = Phase.locked := hi
      by_cases hij : i = j
      · subst hij
        rw [Function.update_same] at hi2
        exact absurd hi2 (by simp)
      · have hpi : s1.phase i = Phase.locked := by
          rwa [Function.update_noteq hij] at hi2
        have hold : s1.holder (lockOf i) = some i := ih i hpi
        show Function.update s1.holder (lockOf j) none (lockOf i) = some i
        by_cases hkey : lockOf i = lockOf j
        · have holdj : s1.holder (lockOf j) = some j := ih j hlocked
          rw [hkey, holdj] at hold
          exact absurd (Option.some.inj hold) fun hc => hij hc.symm
        · rw [Function.update_noteq hkey]
          exact hold

/-- Polling never changes the static (polled) events map. -/
theorem get_events_static_frame {ε : Type} (st : FeedState ε) (stream_id : String)
    (limit : Option Nat) :
    (get_change_stream_events st stream_id limit).2.static_events = st.static_events := by
  cases hs : st.static_events with
  | none => simp [get_change_stream_events, hs]
  | some sm =>
    cases hf : HMap.find sm stream_id with
    | none => simp [get_change_stream_events, hs, hf]
    | some evs =>
      cases hm : HMap.find st.change_stream_events stream_id with
      | none => simp [get_change_stream_events, hs, hf, hm]
      | some old => simp [get_change_stream_events, hs, hf, hm]

/-- On a stream id present in the static map, polling returns the events
reversed and truncated to the limit. -/
theorem get_events_found {ε : Type} (st : FeedState ε) (stream_id : String)
    (limit : Option Nat) (sm : HMap (List ε)) (evs : List ε)
    (h1 : st.static_events = some sm) (h2 : HMap.find sm stream_id = some evs) :
    (get_change_stream_events st stream_id limit).1 =
      evs.reverse.take (limit.getD 100) := by
  cases hm : HMap.find st.change_stream_events stream_id <;>
    simp [get_change_stream_events, h1, h2, hm]

/-- A session whose stream is exhausted yields an empty batch and is left
unchanged. -/
theorem next_batch_exhausted {α : Type} (s : CursorSession α) (h : s.cursor = []) :
    next_batch s = ([], s) := by
  obtain ⟨c, bs⟩ := s
  have h2 : c = [] := h
  subst h2
  simp [next_batch, nextBatchGo_nil]

/-- C1 counterexample: on the stream `ok 1, decode-error, ok 2` with batch
size 3, `next_batch` returns only `[1]`: the decode failure ends the loop,
it does not skip the item and continue to collect `[1, 2]` as the claim
states. -/
theorem c1_counterexample :
    (next_batch (⟨[Except.ok 1, Except.error (), Except.ok 2], 3⟩ : CursorSession Nat)).1 =
      [1] ∧
    (next_batch (⟨[Except.ok 1, Except.error (), Except.ok 2], 3⟩ : CursorSession Nat)).1 ≠
      [1, 2] := by
  constructor
  · rfl
  · decide

/-- C1 (amended): a per-item decode failure ends the batch early rather
than aborting the call: `next_batch` returns the items decoded before the
failure (no error is reported), the failed item is consumed and skipped,
and no further items are pulled in that call, so the batch may hold fewer
than `batch_size` items even though the stream has more. -/
theorem c1_decode_failure_truncates_batch (docs : List Nat) (e : Unit)
    (rest : List (Except Unit Nat)) (bs : Nat) (h : docs.length < bs) :
    next_batch (⟨docs.map Except.ok ++ Except.error e :: rest, bs⟩ : CursorSession Nat) =
      (docs, ⟨rest, bs⟩) := by
  simp [next_batch, nextBatchGo_until_error docs e rest bs h]

/-- C1 witness: the amended statement at a concrete stream. -/
theorem c1_witness :
    next_batch (⟨[Except.ok 5, Except.error (), Except.ok 6], 4⟩ : CursorSession Nat) =
      ([5], ⟨[Except.ok 6], 4⟩) :=
  c1_decode_failure_truncates_batch [5] () [Except.ok 6] 4 (by decide)

/-- C2: evaluation of the code at the failing input.  Starting from a
state with one stream `"s"` holding one buffered event, `stop_change_stream`
removes the per-request bookkeeping but not the entry in the static
`CHANGE_STREAM_EVENTS` map, which is exactly the map
`get_change_stream_events` reads — so a Poll after the Stop still returns
the buffered event rather than the empty list the claim requires. -/
theorem c2_poll_after_stop_not_empty :
    (get_change_stream_events (stop_change_stream feedDemoState "s") "s" none).1 = [0] ∧
    (get_change_stream_events (stop_change_stream feedDemoState "s") "s" none).1 ≠ [] := by
  constructor
  · rfl
  · decide

/-- C3: the change-feed buffer is bounded by 1000 with oldest-first
eviction: an append on a tracked stream id rewrites the buffer by the
bounded push; any number of appends from the empty buffer leaves at most
1000 events; at capacity the entry at index 0 is evicted and the new event
goes to the tail; appending 1500 events leaves exactly the most recent
1000 in arrival order. -/
theorem c3_change_buffer_bounded :
    (∀ (m : HMap (List Nat)) (stream_id : String) (e : Nat) (evs : List Nat),
      HMap.find m stream_id = some evs →
      HMap.find (store_event m stream_id e) stream_id = some (push_evict evs e)) ∧
    (∀ (xs : List Nat), (List.foldl push_evict [] xs).length ≤ 1000) ∧
    (∀ (evs : List Nat) (e : Nat), evs.length = 1000 →
      push_evict evs e = evs.drop 1 ++ [e]) ∧
    (∀ (xs : List Nat), xs.length = 1500 →
      List.foldl push_evict [] xs = xs.drop 500 ∧
      (List.foldl push_evict [] xs).length = 1000) := by
  refine ⟨?_, ?_, ?_, ?_⟩
  · intro m stream_id e evs h
    simp only [store_event, h]
    exact HMap.find_insert m stream_id _
  · intro xs
    rw [foldl_push_evict, List.length_drop]
    omega
  · intro evs e h
    have hc : (evs ++ [e]).length > 1000 := by
      simp only [List.length_append, List.length_cons, List.length_nil]
      omega
    simp only [push_evict, hc, if_true, gt_iff_lt, if_pos]
    exact List.drop_append_of_le_length (by omega)
  · intro xs h
    constructor
    · rw [foldl_push_evict, h]
    · rw [foldl_push_evict, List.length_drop, h]

/-- C3 witness: 1500 concrete events. -/
theorem c3_witness :
    List.foldl push_evict [] (List.range 1500) = (List.range 1500).drop 500 ∧
    (List.foldl push_evict [] (List.range 1500)).length = 1000 :=
  c3_change_buffer_bounded.2.2.2 (List.range 1500) (by simp)

/-- C4: the query-history log is bounded by 1000 with tail append and
oldest-first eviction: a record always ends up as the last entry; any
number of records from the empty log leaves at most 1000 entries; after
1001 records the log holds exactly 1000 entries and the originally-oldest
record (index 0 of the insertion sequence) is the one evicted. -/
theorem c4_history_log_bounded :
    (∀ (history : List QueryHistoryEntry) (entry : QueryHistoryEntry),
      (push_evict history entry).getLast? = some entry) ∧
    (∀ (xs : List QueryHistoryEntry), (List.foldl push_evict [] xs).length ≤ 1000) ∧
    (∀ (xs : List QueryHistoryEntry), xs.length = 1001 →
      List.foldl push_evict [] xs = xs.drop 1 ∧
      (List.foldl push_evict [] xs).length = 1000) := by
  refine ⟨?_, ?_, ?_⟩
  · intro history entry
    by_cases hc : (history ++ [entry]).length > 1000
    · have h1 : (1 : Nat) ≤ history.length := by
        simp only [List.length_append, List.length_cons, List.length_nil] at hc
        omega
      simp only [push_evict, hc, if_true, gt_iff_lt, if_pos]
      rw [List.drop_append_of_le_length h1]
      simp
    · simp only [push_evict, hc, if_false]
      simp
  · intro xs
    rw [foldl_push_evict, List.length_drop]
    omega
  · intro xs h
    constructor
    · rw [foldl_push_evict, h]
    · rw [foldl_push_evict, List.length_drop, h]

/-- C4 witness: 1001 concrete history entries. -/
theorem c4_witness :
    List.foldl push_evict [] (List.replicate 1001 demoEntry) =
      (List.replicate 1001 demoEntry).drop 1 ∧
    (List.foldl push_evict [] (List.replicate 1001 demoEntry)).length = 1000 :=
  c4_history_log_bounded.2.2 (List.replicate 1001 demoEntry)
    (by rw [List.length_replicate])

/-- C5: `get_change_stream_events` on a stream id known to the polled
(static) events map returns the reversed length-`limit` suffix of the
buffer — up to `limit` (default 100) most recent events, newest first —
and leaves the polled map unchanged; on an id the polled map does not
know (or with the static storage uninitialized) it returns the empty
list, not an error. -/
theorem c5_poll_semantics (st : FeedState Nat) (stream_id : String) (limit : Option Nat) :
    (∀ (sm : HMap (List Nat)) (evs : List Nat),
      st.static_events = some sm → HMap.find sm stream_id = some evs →
      (get_change_stream_events st stream_id limit).1 =
        (evs.drop (evs.length - limit.getD 100)).reverse ∧
      (get_change_stream_events st stream_id limit).1.length ≤ limit.getD 100 ∧
      (get_change_stream_events st stream_id limit).2.static_events = st.static_events) ∧
    (∀ (sm : HMap (List Nat)),
      st.static_events = some sm → HMap.find sm stream_id = none →
      get_change_stream_events st stream_id limit = ([], st)) ∧
    (st.static_events = none → get_change_stream_events st stream_id limit = ([], st)) := by
  refine ⟨?_, ?_, ?_⟩
  · intro sm evs h1 h2
    refine ⟨?_, ?_, get_events_static_frame st stream_id limit⟩
    · rw [get_events_found st stream_id limit sm evs h1 h2]
      exact reverse_take_eq_drop_reverse evs (limit.getD 100)
    · rw [get_events_found st stream_id limit sm evs h1 h2]
      simp only [List.length_take, List.length_reverse]
      omega
  · intro sm h1 h2
    simp only [get_change_stream_events, h1, h2]
  · intro h
    simp only [get_change_stream_events, h]

/-- C5 witness: polling the demo stream with limit 10. -/
theorem c5_witness :
    (get_change_stream_events feedDemoState "s" (some 10)).1 =
      (([0] : List Nat).drop (([0] : List Nat).length - (some 10).getD 100)).reverse ∧
    (get_change_stream_events feedDemoState "s" (some 10)).1.length ≤ (some 10).getD 100 ∧
    (get_change_stream_events feedDemoState "s" (some 10)).2.static_events =
      feedDemoState.static_events :=
  (c5_poll_semantics feedDemoState "s" (some 10)).1 [("s", [0])] [0] rfl rfl

/-- C6: a batch never exceeds the session's batch size; `set_batch_size`
clamps its argument into `[1, 1000]` (and keeps an in-range argument
unchanged) without erroring; and a fetch on an exhausted stream returns an
empty list through `Except.ok`, never an error. -/
theorem c6_fetch_bounds :
    (∀ (s : CursorSession Nat), (next_batch s).1.length ≤ s.batch_size) ∧
    (∀ (s : CursorSession Nat) (n : Nat),
      1 ≤ (set_batch_size s n).batch_size ∧ (set_batch_size s n).batch_size ≤ 1000 ∧
      (1 ≤ n → n ≤ 1000 → (set_batch_size s n).batch_size = n)) ∧
    (∀ (s : CursorSession Nat), s.cursor = [] → next_batch s = ([], s)) ∧
    (∀ (cursors : HMap (CursorSession Nat)) (session_id : String) (s : CursorSession Nat),
      HMap.find cursors session_id = some s → s.cursor = [] →
      fetch_next cursors session_id =
        Except.ok ([], HMap.insert cursors session_id s)) := by
  refine ⟨?_, ?_, ?_, ?_⟩
  · intro s
    exact nextBatchGo_length_le s.batch_size s.cursor
  · intro s n
    simp only [set_batch_size]
    omega
  · intro s h
    exact next_batch_exhausted s h
  · intro cursors session_id s h1 h2
    simp only [fetch_next, h1, next_batch_exhausted s h2]

/-- C6 witness: fetching from a registered but exhausted session. -/
theorem c6_witness :
    fetch_next [("x", ({ cursor := [], batch_size := 50 } : CursorSession Nat))] "x" =
      Except.ok ([],
        HMap.insert [("x", ({ cursor := [], batch_size := 50 } : CursorSession Nat))] "x"
          { cursor := [], batch_size := 50 }) :=
  c6_fetch_bounds.2.2.2 _ "x" _ rfl rfl

/-- C7: `cancel_query` always succeeds (it returns `Ok` with the session
removed), is a no-op — still without error — on an unknown id, and any
`fetch_next` on the state it produces fails with the `"Invalid session ID"`
(session-not-found) error for that id. -/
theorem c7_cancel_contract :
    (∀ (m : HMap (CursorSession Nat)) (session_id : String),
      cancel_query m session_id = Except.ok (HMap.remove m session_id)) ∧
    (∀ (m : HMap (CursorSession Nat)) (session_id : String),
      HMap.find m session_id = none → cancel_query m session_id = Except.ok m) ∧
    (∀ (m m2 : HMap (CursorSession Nat)) (session_id : String),
      cancel_query m session_id = Except.ok m2 →
      fetch_next m2 session_id = Except.error "Invalid session ID") := by
  refine ⟨fun m session_id => rfl, ?_, ?_⟩
  · intro m session_id h
    simp [cancel_query, HMap.remove_of_find_none h]
  · intro m m2 session_id h
    have h2 : m2 = HMap.remove m session_id := (Except.ok.inj h).symm
    subst h2
    simp [fetch_next, HMap.find_remove]

/-- C7 witness: cancel then fetch on a concrete session id. -/
theorem c7_witness :
    fetch_next
        (HMap.remove [("y", ({ cursor := [], batch_size := 50 } : CursorSession Nat))] "y")
        "y" =
      Except.error "Invalid session ID" :=
  c7_cancel_contract.2.2 [("y", { cursor := [], batch_size := 50 })] _ "y" rfl

/-- C8 counterexample: a successful `connect_db` with generated id `"cid"`
and a 7 ms connection time returns the string `"cid|7"`, not the
connection id `"cid"` under which the handle was stored, refuting the
claim that the operation returns the freshly generated connection id. -/
theorem c8_counterexample :
    (connect_db (Except.ok ()) 7 "cid" 0 "mongodb://u@h" none
        { clients := [], connections := [] }).toOption.map Prod.fst = some "cid|7" ∧
    ("cid|7" : String) ≠ "cid" := by
  constructor
  · rfl
  · decide

/-- C8 (amended): a successful `connect_db` stores the handle and the
metadata (name defaulting to the URI segment after the last `'@'`,
creation timestamp recorded) under the freshly generated connection id,
but returns that id concatenated with `'|'` and the connection time in
milliseconds rather than the bare id; a failed connect returns the error. -/
theorem c8_connect_semantics (connection_time : Nat) (connection_id : String) (now : Nat)
    (uri : String) (name : Option String) (st : ConnState) :
    (∃ st2 : ConnState,
      connect_db (Except.ok ()) connection_time connection_id now uri name st =
        Except.ok (connection_id ++ "|" ++ toString connection_time, st2) ∧
      HMap.find st2.clients connection_id = some () ∧
      HMap.find st2.connections connection_id =
        some { id := connection_id,
               name := name.getD ((uri.splitOn "@").getLastD "Connection"),
               uri := uri, connected_at := now }) ∧
    (∀ (e : String),
      connect_db (Except.error e) connection_time connection_id now uri name st =
        Except.error e) := by
  constructor
  · refine ⟨_, rfl, ?_, ?_⟩
    · exact HMap.find_insert st.clients connection_id ()
    · exact HMap.find_insert st.connections connection_id _
  · intro e
    rfl

/-- C9: evaluation of the code at the failing input.
`clear_change_stream_events` empties only the state-side copy of the
buffer, while `get_change_stream_events` reads the static
`CHANGE_STREAM_EVENTS` map — so a Poll right after the Clear still
returns the buffered event instead of the empty list the claim requires
(the liveness metadata in `change_streams` is indeed untouched). -/
theorem c9_clear_does_not_affect_poll :
    (get_change_stream_events (clear_change_stream_events feedDemoState "s") "s" none).1 =
      [0] ∧
    (get_change_stream_events (clear_change_stream_events feedDemoState "s") "s" none).1 ≠
      [] ∧
    (clear_change_stream_events feedDemoState "s").change_streams =
      feedDemoState.change_streams := by
  refine ⟨rfl, by decide, rfl⟩

/-- C10 counterexample: with two concurrent `fetch_next` calls on the
distinct session ids `"a"` and `"b"`, the reachable state in which call 0
holds the cursors mutex leaves call 1 — still before its fetch — with no
enabled step at all: fetches on different sessions block on each other,
refuting the claimed independence. -/
theorem c10_counterexample :
    sidsAB 0 ≠ sidsAB 1 ∧
    Reach lockAB blockedSys ∧
    blockedSys.phase 1 = Phase.start ∧
    ¬ ∃ s2 : LockSys, FetchStep lockAB 1 blockedSys s2 := by
  refine ⟨by decide, ?_, rfl, ?_⟩
  · exact Reach.step Reach.init (FetchStep.acquire initSys rfl rfl)
  · rintro ⟨s2, hstep⟩
    cases hstep with
    | acquire hstart hfree => exact absurd hfree (by decide)
    | release hlocked => exact absurd hlocked (by decide)

/-- C10 (amended): every pair of concurrent `fetch_next` calls — whatever
their session ids, equal or distinct — is serialized: both calls acquire
the single `state.cursors` mutex for the whole fetch, so in no reachable
interleaving are the two calls inside their critical sections at once.
Same-id calls are thus mutually exclusive as claimed, but distinct-id
calls are not independent: they contend on the same mutex. -/
theorem c10_fetch_mutual_exclusion (sids : Fin 2 → String) (s : LockSys)
    (h : Reach (fun i => lockOfFetch (sids i)) s) :
    ¬ (s.phase 0 = Phase.locked ∧ s.phase 1 = Phase.locked) := by
  rintro ⟨h0, h1⟩
  have e0 : s.holder "state.cursors" = some 0 := reach_holder_inv h 0 h0
  have e1 : s.holder "state.cursors" = some 1 := reach_holder_inv h 1 h1
  rw [e0] at e1
  exact absurd (Option.some.inj e1) (by decide)

/-- C10 witness: the amended statement at the initial state. -/
theorem c10_witness :
    ¬ (initSys.phase 0 = Phase.locked ∧ initSys.phase 1 = Phase.locked) :=
  c10_fetch_mutual_exclusion sidsAB initSys Reach.init
